import Mathlib

/-!
Verification of the two-body problem module (`poliastro/twobody.py`).

The development shallowly embeds the module over the real numbers:
floating-point values become `ℝ`, numpy 3-vectors become `Vec3`,
`astropy` quantities become `Qty` (a value paired with a unit), and the
Fortran anomaly solver `_ast2body.kepler` becomes an explicit function
parameter.  Python exceptions are modelled with `Except`.
-/

open Real

/-! ## Three-dimensional vectors (numpy arrays of shape (3,)) -/

/-- A 3-vector of reals, modelling a numpy array of shape `(3,)`. -/
@[ext] structure Vec3 where
  x : ℝ
  y : ℝ
  z : ℝ

/-- Dot product, modelling `numpy.dot` on 3-vectors. -/
def Vec3.dot (u v : Vec3) : ℝ := u.x * v.x + u.y * v.y + u.z * v.z

/-- Cross product, modelling `numpy.cross` on 3-vectors. -/
def Vec3.cross (u v : Vec3) : Vec3 :=
  ⟨u.y * v.z - u.z * v.y, u.z * v.x - u.x * v.z, u.x * v.y - u.y * v.x⟩

/-- Euclidean norm, modelling `numpy.linalg.norm` on 3-vectors. -/
noncomputable def Vec3.norm (v : Vec3) : ℝ := Real.sqrt (v.dot v)

/-- Scalar multiple of a vector (numpy broadcasting `array * scalar`). -/
def Vec3.smul (c : ℝ) (v : Vec3) : Vec3 := ⟨c * v.x, c * v.y, c * v.z⟩

/-- Componentwise division of a vector by a scalar (`array / scalar`). -/
noncomputable def Vec3.sdiv (v : Vec3) (c : ℝ) : Vec3 := ⟨v.x / c, v.y / c, v.z / c⟩

/-- Componentwise difference of two vectors. -/
def Vec3.sub (u v : Vec3) : Vec3 := ⟨u.x - v.x, u.y - v.y, u.z - v.z⟩

/-! ## Rotation about a principal axis

`poliastro.util.transform` is imported by `twobody.py` but its source is
not part of the repository snapshot. -/

/-- A principal rotation axis, modelling the `axis` argument of `transform`. -/
inductive Axis where
  | x
  | y
  | z

/-- Modelled from the spec: `poliastro.util.transform` is not under `src/`.
Per §4.1 the collaborator rotates a 3-vector about a principal axis by a
signed angle, and per §4.2 step 3 the sequence `−argp` about z, `−inc`
about x, `−raan` about z carries the perifocal frame into the inertial
frame; this fixes the frame-rotation (Vallado `ROT1`/`ROT3`) convention
used here. -/
noncomputable def transform (vec : Vec3) (ang : ℝ) (axis : Axis) : Vec3 :=
  match axis with
  | Axis.x => ⟨vec.x,
               Real.cos ang * vec.y + Real.sin ang * vec.z,
               -Real.sin ang * vec.y + Real.cos ang * vec.z⟩
  | Axis.y => ⟨Real.cos ang * vec.x - Real.sin ang * vec.z,
               vec.y,
               Real.sin ang * vec.x + Real.cos ang * vec.z⟩
  | Axis.z => ⟨Real.cos ang * vec.x + Real.sin ang * vec.y,
               -Real.sin ang * vec.x + Real.cos ang * vec.y,
               vec.z⟩

/-! ## numpy scalar helpers -/

/-- Four-quadrant inverse tangent, modelling `numpy.arctan2 (y, x)`:
`arctan (y/x)` corrected into `(-π, π]` according to the quadrant, with
`atan2 0 0 = 0`. -/
noncomputable def atan2 (y x : ℝ) : ℝ :=
  if 0 < x then Real.arctan (y / x)
  else if x < 0 then
    (if 0 ≤ y then Real.arctan (y / x) + π else Real.arctan (y / x) - π)
  else
    (if 0 < y then π / 2 else if y < 0 then -(π / 2) else 0)

/-- Python's `%` on reals with a positive modulus: the remainder
`x - m * ⌊x / m⌋`, which lies in `[0, m)` for `m > 0` (the sign follows
the divisor, as in Python). -/
noncomputable def pymod (x m : ℝ) : ℝ := x - m * ⌊x / m⌋

/-! ## coe2rv (twobody.py lines 109–145) -/

/-- The perifocal-frame position vector built inside `coe2rv`
(lines 130–133): `np.array([cos ν/(1+e·cos ν), sin ν/(1+e·cos ν), 0]) * p`. -/
noncomputable def rPQW (a ecc nu : ℝ) : Vec3 :=
  Vec3.smul (a * (1 - ecc ^ 2))
    ⟨Real.cos nu / (1 + ecc * Real.cos nu), Real.sin nu / (1 + ecc * Real.cos nu), 0⟩

/-- The perifocal-frame velocity vector built inside `coe2rv`
(lines 134–136): `np.array([-sin ν, e + cos ν, 0]) * sqrt(k/p)`. -/
noncomputable def vPQW (k a ecc nu : ℝ) : Vec3 :=
  Vec3.smul (Real.sqrt (k / (a * (1 - ecc ^ 2))))
    ⟨-Real.sin nu, ecc + Real.cos nu, 0⟩

/-- `coe2rv` (lines 109–145): converts orbital elements to position and
velocity vectors, rotating the perifocal vectors by `−argp` about z, then
`−inc` about x, then `−raan` about z. -/
noncomputable def coe2rv (k a ecc inc raan argp nu : ℝ) : Vec3 × Vec3 :=
  let r_pqw := rPQW a ecc nu
  let v_pqw := vPQW k a ecc nu
  let r_ijk := transform (transform (transform r_pqw (-argp) Axis.z) (-inc) Axis.x) (-raan) Axis.z
  let v_ijk := transform (transform (transform v_pqw (-argp) Axis.z) (-inc) Axis.x) (-raan) Axis.z
  (r_ijk, v_ijk)

/-! ## rv2coe (twobody.py lines 148–174)

The local variables `h`, `n`, `e` of the Python function are named
top-level functions so the proofs can speak about them. -/

/-- The specific angular momentum `h = np.cross(r, v)` (line 161). -/
def hVec (r v : Vec3) : Vec3 := Vec3.cross r v

/-- The node vector `n = np.cross([0, 0, 1], h) / norm(h)` (line 162). -/
noncomputable def nVec (r v : Vec3) : Vec3 :=
  Vec3.sdiv (Vec3.cross ⟨0, 0, 1⟩ (hVec r v)) (Vec3.norm (hVec r v))

/-- The eccentricity vector
`e = ((v·v - k/‖r‖) * r - (r·v) * v) / k` (line 163). -/
noncomputable def eVec (k : ℝ) (r v : Vec3) : Vec3 :=
  Vec3.sdiv
    (Vec3.sub (Vec3.smul (Vec3.dot v v - k / Vec3.norm r) r)
              (Vec3.smul (Vec3.dot r v) v))
    k

/-- `rv2coe` (lines 148–174): converts position and velocity vectors to the
six classical orbital elements `(a, ecc, inc, raan, argp, nu)`. -/
noncomputable def rv2coe (k : ℝ) (r v : Vec3) : ℝ × ℝ × ℝ × ℝ × ℝ × ℝ :=
  let h := hVec r v
  let n := nVec r v
  let e := eVec k r v
  let ecc := Vec3.norm e
  let p := Vec3.dot h h / k
  let a := p / (1 - ecc ^ 2)
  let inc := Real.arccos (h.z / Vec3.norm h)
  let raan := pymod (atan2 n.y n.x) (2 * π)
  let argp := pymod (atan2 (Vec3.dot h (Vec3.cross n e) / Vec3.norm h) (Vec3.dot e n)) (2 * π)
  let nu := pymod (atan2 (Vec3.dot h (Vec3.cross e r) / Vec3.norm h) (Vec3.dot r e)) (2 * π)
  (a, ecc, inc, raan, argp, nu)

/-! ## kepler (twobody.py lines 177–208) -/

/-- The result triple returned by the anomaly-solver collaborator
`_ast2body.kepler`: updated vectors and a status string. -/
structure SolverResult where
  r : Vec3
  v : Vec3
  error : String

/-- The signature of the anomaly-solver collaborator, called as
`_ast2body.kepler(r0, v0, tof, k)`.  Modelled from the spec (§6): the
Fortran module `_ast2body` is not under `src/`. -/
def Solver : Type := Vec3 → Vec3 → ℝ → ℝ → SolverResult

/-- Python exceptions raised by the module. -/
inductive PyError where
  | valueError (msg : String)
  | unitsError (msg : String)
  | runtimeError (msg : String)
deriving DecidableEq

/-- Python's `str.strip()`: removes leading and trailing whitespace. -/
def pyStrip (s : String) : String :=
  ⟨((s.data.dropWhile Char.isWhitespace).reverse.dropWhile Char.isWhitespace).reverse⟩

/-- `kepler` (lines 177–208): propagates an orbit by delegating to the
anomaly solver; a status other than `"ok"` (after stripping) becomes a
`RuntimeError` carrying the status, otherwise the solver's vectors are
returned.  The byte-string `decode('ascii')` of the source is elided
(statuses are already strings here). -/
def kepler (solve : Solver) (k : ℝ) (r0 v0 : Vec3) (tof : ℝ) :
    Except PyError (Vec3 × Vec3) :=
  let res := solve r0 v0 tof k
  let error := pyStrip res.error
  if error ≠ "ok" then
    Except.error (PyError.runtimeError ("There was an error: " ++ error))
  else
    Except.ok (res.r, res.v)

/-! ## Physical quantities (astropy units)

`astropy.units` and `poliastro.util.check_units` are collaborators whose
sources are not part of the repository snapshot; they are modelled from
the spec (§6): a quantity carries a physical dimension and a conversion
scale, and the unit-consistency check compares dimensions. -/

/-- A physical dimension: exponents of length, time and angle.
(Angle is tracked as its own dimension so that `rad`/`deg` conversions
are expressible, mirroring astropy's angular units.) -/
structure Dim where
  len : ℤ
  time : ℤ
  ang : ℤ
deriving DecidableEq

/-- A unit: a dimension together with a positive scale factor expressing
it in the base units (metre, second, radian). -/
structure AUnit where
  dim : Dim
  scale : ℝ

/-- The metre, `u.m`. -/
def metre : AUnit := ⟨⟨1, 0, 0⟩, 1⟩

/-- The kilometre, `u.km`. -/
def km : AUnit := ⟨⟨1, 0, 0⟩, 1000⟩

/-- The second, `u.s`. -/
def second : AUnit := ⟨⟨0, 1, 0⟩, 1⟩

/-- The radian, `u.rad`. -/
def radian : AUnit := ⟨⟨0, 0, 1⟩, 1⟩

/-- The degree, `u.deg`. -/
noncomputable def degree : AUnit := ⟨⟨0, 0, 1⟩, π / 180⟩

/-- The dimensionless unit, `u.one`. -/
def one_unit : AUnit := ⟨⟨0, 0, 0⟩, 1⟩

/-- `u.km ** 3 / u.s ** 2`, the working unit of the gravitational
parameter. -/
def km3s2 : AUnit := ⟨⟨3, -2, 0⟩, 1000000000⟩

/-- `u.m / u.s`. -/
def mps : AUnit := ⟨⟨1, -1, 0⟩, 1⟩

/-- `u.km / u.s`, the working velocity unit. -/
def kmps : AUnit := ⟨⟨1, -1, 0⟩, 1000⟩

/-- A scalar quantity: a value tagged with a unit (an astropy `Quantity`). -/
structure Qty where
  val : ℝ
  unit : AUnit

/-- Unit conversion `Quantity.to`: rescales the value.  (astropy raises on
a dimension mismatch; every conversion performed by the embedded code is
dimension-correct, so the check is not modelled.) -/
noncomputable def Qty.to (q : Qty) (target : AUnit) : Qty :=
  ⟨q.val * (q.unit.scale / target.scale), target⟩

/-- A vector quantity: a `Vec3` tagged with a unit. -/
structure QVec where
  vec : Vec3
  unit : AUnit

/-- Unit conversion for vector quantities. -/
noncomputable def QVec.to (q : QVec) (target : AUnit) : QVec :=
  ⟨Vec3.smul (q.unit.scale / target.scale) q.vec, target⟩

/-- Modelled from the spec: `poliastro.util.check_units` is not under
`src/`.  Per §6 it "validates that a list of physical quantities carries
the expected physical dimensions", so it compares the dimension of each
supplied quantity with the dimension of the corresponding expected unit
(and the two lists must have equal length). -/
def check_units (qs : List Qty) (expected : List AUnit) : Prop :=
  qs.map (fun q => q.unit.dim) = expected.map (fun u => u.dim)

instance (qs : List Qty) (expected : List AUnit) :
    Decidable (check_units qs expected) :=
  inferInstanceAs (Decidable (qs.map (fun q => q.unit.dim) = expected.map (fun u => u.dim)))

/-- The dimension-consistency check performed by `from_vectors` on the
pair `(r, v)` against `(u.m, u.m / u.s)`. -/
def check_units_rv (r v : QVec) : Prop :=
  r.unit.dim = metre.dim ∧ v.unit.dim = mps.dim

instance (r v : QVec) : Decidable (check_units_rv r v) :=
  inferInstanceAs (Decidable (r.unit.dim = metre.dim ∧ v.unit.dim = mps.dim))

/-! ## The State class (twobody.py lines 20–106) -/

/-- The attractor collaborator: exposes a gravitational parameter `k`. -/
structure Body where
  k : Qty

/-- The `State` class: attractor, position, velocity, epoch and the
lazily-populated element cache `_elements` (`None` ≃ `Option.none`).
Epochs are modelled as real time offsets in seconds. -/
structure State where
  attractor : Body
  r : QVec
  v : QVec
  epoch : ℝ
  cache : Option (List Qty)

/-- The default epoch `J2000`, the origin of the time axis. -/
def J2000 : ℝ := 0

/-- `State.from_vectors` (lines 44–52): checks unit consistency of the
supplied vectors and constructs a state with an empty element cache. -/
def State.from_vectors (attractor : Body) (r v : QVec) (epoch : ℝ) :
    Except PyError State :=
  if ¬ check_units_rv r v then
    Except.error (PyError.unitsError "Units must be consistent")
  else
    Except.ok { attractor := attractor, r := r, v := v, epoch := epoch, cache := none }

/-- The quantity-level entry into `coe2rv` performed by `from_elements`:
astropy propagates units through the arithmetic of `coe2rv`, so the
computation is equivalent to converting every input to the working system
(km, s, rad) and tagging the resulting vectors with `km` and `km/s`;
observations through `.to` agree with astropy's own tagging. -/
noncomputable def coe2rvQ (k a ecc inc raan argp nu : Qty) : QVec × QVec :=
  let rv := coe2rv (k.to km3s2).val (a.to km).val (ecc.to one_unit).val
    (inc.to radian).val (raan.to radian).val (argp.to radian).val (nu.to radian).val
  (⟨rv.1, km⟩, ⟨rv.2, kmps⟩)

/-- Line 66 of `from_elements`: the conversion
`k = attractor.k.to(u.km ** 3 / u.s ** 2)` applied to the attractor's
gravitational parameter — the unit of the result is the fixed working
unit `km³/s²`, independent of the units of the supplied elements. -/
noncomputable def from_elements_k (attractor : Body) : Qty := attractor.k.to km3s2

/-- `State.from_elements` (lines 54–72): requires exactly 6 elements
(`ValueError` otherwise, before the unit check), checks their dimensions
against `(u.m, u.one, u.rad, u.rad, u.rad, u.rad)`, converts the
attractor's `k` to `u.km ** 3 / u.s ** 2`, runs `coe2rv` and constructs a
state whose element cache is pre-populated with the input elements. -/
noncomputable def State.from_elements (attractor : Body) (elements : List Qty)
    (epoch : ℝ) : Except PyError State :=
  match elements with
  | [a, ecc, inc, raan, argp, nu] =>
    if ¬ check_units elements [metre, one_unit, radian, radian, radian, radian] then
      Except.error (PyError.unitsError "Units must be consistent")
    else
      let k := from_elements_k attractor
      let rv := coe2rvQ k a ecc inc raan argp nu
      Except.ok { attractor := attractor, r := rv.1, v := rv.2, epoch := epoch,
                  cache := some elements }
  | _ => Except.error (PyError.valueError "Incorrect number of parameters")

/-- The `elements` property (lines 74–90), in state-passing style: the
returned pair is the property's value together with the receiver after
the call (the only attribute the class ever writes after construction is
the `_elements` cache).  On a cache miss the elements are computed by
`rv2coe` from `k`, `r`, `v` converted to the working system (km, s); the
four angles are converted from radians to degrees, the semi-major axis is
tagged `km` and the eccentricity `u.one`. -/
noncomputable def State.elements (s : State) : List Qty × State :=
  match s.cache with
  | some el => (el, s)
  | none =>
    let k := (s.attractor.k.to km3s2).val
    let r := (s.r.to km).vec
    let v := (s.v.to kmps).vec
    let t := rv2coe k r v
    let el := [⟨t.1, km⟩, ⟨t.2.1, one_unit⟩, (Qty.mk t.2.2.1 radian).to degree,
               (Qty.mk t.2.2.2.1 radian).to degree, (Qty.mk t.2.2.2.2.1 radian).to degree,
               (Qty.mk t.2.2.2.2.2 radian).to degree]
    (el, { s with cache := some el })

/-- `State.propagate` (lines 98–106), in state-passing style: the second
component of the result is the receiver after the call (the method writes
no attribute of `self`).  Converts `k`, `r`, `v`, `time_of_flight` to the
working system, calls `kepler`, and on success builds a new state through
`from_vectors` with the epoch advanced by the time of flight. -/
noncomputable def State.propagate (solve : Solver) (s : State) (tof : Qty) :
    Except PyError State × State :=
  let res := kepler solve (s.attractor.k.to km3s2).val (s.r.to km).vec
    (s.v.to kmps).vec (tof.to second).val
  match res with
  | Except.error e => (Except.error e, s)
  | Except.ok rv =>
    (State.from_vectors s.attractor ⟨rv.1, km⟩ ⟨rv.2, kmps⟩
      (s.epoch + (tof.to second).val), s)

/-! ## Spec-side reference definitions

For the refinement claims, a second definition follows the wording of
the specification and is compared with the definition translated from
the source. -/

/-- The rotation sequence of §4.2 step 3: rotate by `−argp` about z, then
`−inc` about x, then `−raan` about z. -/
noncomputable def specRotSeq (inc raan argp : ℝ) (w : Vec3) : Vec3 :=
  transform (transform (transform w (-argp) Axis.z) (-inc) Axis.x) (-raan) Axis.z

/-- `ElementsToVectors` as worded in §4.2 of the spec:
`r_pqw = p/(1+ecc·cos ν) · (cos ν, sin ν, 0)`,
`v_pqw = √(k/p) · (−sin ν, ecc+cos ν, 0)` with `p = a·(1−ecc²)`, both
mapped to the inertial frame by the same rotation sequence. -/
noncomputable def coe2rv_spec (k a ecc inc raan argp nu : ℝ) : Vec3 × Vec3 :=
  let p := a * (1 - ecc ^ 2)
  let r_pqw := Vec3.smul (p / (1 + ecc * Real.cos nu)) ⟨Real.cos nu, Real.sin nu, 0⟩
  let v_pqw := Vec3.smul (Real.sqrt (k / p)) ⟨-Real.sin nu, ecc + Real.cos nu, 0⟩
  (specRotSeq inc raan argp r_pqw, specRotSeq inc raan argp v_pqw)

/-- `VectorsToElements` as worded in §4.3 of the spec: the reference
formulas `h = r×v`, `n = ẑ×h/‖h‖`,
`e = ((v·v − k/‖r‖)·r − (r·v)·v)/k`, `ecc = ‖e‖`, `p = h·h/k`,
`a = p/(1−ecc²)`, `inc = arccos(h_z/‖h‖)`,
`raan = atan2(n_y, n_x) mod 2π`,
`argp = atan2(h·(n×e)/‖h‖, e·n) mod 2π`,
`nu = atan2(h·(e×r)/‖h‖, r·e) mod 2π`. -/
noncomputable def rv2coe_spec (k : ℝ) (r v : Vec3) : ℝ × ℝ × ℝ × ℝ × ℝ × ℝ :=
  let h := Vec3.cross r v
  let n := Vec3.sdiv (Vec3.cross ⟨0, 0, 1⟩ h) (Vec3.norm h)
  let e := Vec3.sdiv (Vec3.sub (Vec3.smul (Vec3.dot v v - k / Vec3.norm r) r)
    (Vec3.smul (Vec3.dot r v) v)) k
  let ecc := Vec3.norm e
  let p := Vec3.dot h h / k
  (p / (1 - ecc ^ 2),
   ecc,
   Real.arccos (h.z / Vec3.norm h),
   pymod (atan2 n.y n.x) (2 * π),
   pymod (atan2 (Vec3.dot h (Vec3.cross n e) / Vec3.norm h) (Vec3.dot e n)) (2 * π),
   pymod (atan2 (Vec3.dot h (Vec3.cross e r) / Vec3.norm h) (Vec3.dot r e)) (2 * π))

/-- The unit "`k` in the same length/time units as the elements" as worded
by the spec (§4.5): the cube of the elements' length unit per second
squared. -/
noncomputable def elementsKUnit (lenUnit : AUnit) : AUnit :=
  ⟨⟨3, -2, 0⟩, lenUnit.scale ^ 3⟩

/-- A concrete anomaly solver that always succeeds, echoing its input
vectors with a padded `"ok"` status. -/
def solverOkW : Solver := fun r v _ _ => ⟨r, v, "  ok  "⟩

/-- A concrete anomaly solver that always fails with status
`"divergence"`. -/
def solverBadW : Solver := fun r v _ _ => ⟨r, v, "divergence"⟩

/-- A concrete attractor (Earth-like gravitational parameter). -/
def earthW : Body := ⟨⟨398600, km3s2⟩⟩

/-- A concrete state built directly from vectors, with an empty cache. -/
def stateW : State :=
  { attractor := earthW, r := ⟨⟨7000, 0, 0⟩, km⟩, v := ⟨⟨0, 8, 0⟩, kmps⟩,
    epoch := 0, cache := none }

/-- A concrete state whose element cache is populated. -/
def stateCachedW : State :=
  { attractor := earthW, r := ⟨⟨7000, 0, 0⟩, km⟩, v := ⟨⟨0, 8, 0⟩, kmps⟩,
    epoch := 0, cache := some [⟨1, km⟩] }

/-- A concrete km/s-based 6-element list. -/
noncomputable def elemsKmW : List Qty :=
  [⟨7000, km⟩, ⟨1/2, one_unit⟩, ⟨0, radian⟩, ⟨0, radian⟩, ⟨0, radian⟩,
   ⟨(0 : ℝ), radian⟩]

/-- The concrete state produced by `from_elements` on `elemsKmW`. -/
noncomputable def stateElemsW : State :=
  { attractor := earthW,
    r := (coe2rvQ (from_elements_k earthW) ⟨7000, km⟩ ⟨1/2, one_unit⟩
      ⟨0, radian⟩ ⟨0, radian⟩ ⟨0, radian⟩ ⟨(0 : ℝ), radian⟩).1,
    v := (coe2rvQ (from_elements_k earthW) ⟨7000, km⟩ ⟨1/2, one_unit⟩
      ⟨0, radian⟩ ⟨0, radian⟩ ⟨0, radian⟩ ⟨(0 : ℝ), radian⟩).2,
    epoch := 0,
    cache := some elemsKmW }

/-! ## Lemmas about pymod -/

theorem pymod_nonneg (x : ℝ) {m : ℝ} (hm : 0 < m) : 0 ≤ pymod x m := by
  unfold pymod
  have h1 : (⌊x / m⌋ : ℝ) ≤ x / m := Int.floor_le _
  have h2 : m * (⌊x / m⌋ : ℝ) ≤ m * (x / m) := by
    exact mul_le_mul_of_nonneg_left h1 hm.le
  have h3 : m * (x / m) = x := by field_simp
  linarith

theorem pymod_lt (x : ℝ) {m : ℝ} (hm : 0 < m) : pymod x m < m := by
  unfold pymod
  have h1 : x / m < (⌊x / m⌋ : ℝ) + 1 := Int.lt_floor_add_one _
  have h2 : m * (x / m) < m * ((⌊x / m⌋ : ℝ) + 1) := by
    exact mul_lt_mul_of_pos_left h1 hm
  have h3 : m * (x / m) = x := by field_simp
  nlinarith

theorem pymod_eq_self {x m : ℝ} (hm : 0 < m) (h0 : 0 ≤ x) (h1 : x < m) :
    pymod x m = x := by
  unfold pymod
  have hfloor : ⌊x / m⌋ = 0 := by
    rw [Int.floor_eq_zero_iff]
    constructor
    · exact div_nonneg h0 hm.le
    · rw [div_lt_one hm]; exact h1
  rw [hfloor]
  simp

theorem pymod_sub_cancel (x : ℝ) {m : ℝ} (hm : 0 < m) :
    pymod (x - m) m = pymod x m := by
  unfold pymod
  have hdiv : (x - m) / m = x / m - 1 := by field_simp
  rw [hdiv]
  have : (1 : ℝ) = ((1 : ℤ) : ℝ) := by norm_num
  rw [this, Int.floor_sub_int]
  push_cast
  ring

/-! ## Rotation algebra

`transform` with any fixed angle and axis is an element of SO(3): it
preserves dot products (hence norms) and commutes with cross products,
and it is linear. -/

theorem transform_dot (u v : Vec3) (θ : ℝ) (ax : Axis) :
    Vec3.dot (transform u θ ax) (transform v θ ax) = Vec3.dot u v := by
  cases ax
  · simp only [transform, Vec3.dot]
    linear_combination (u.y * v.y + u.z * v.z) * Real.sin_sq_add_cos_sq θ
  · simp only [transform, Vec3.dot]
    linear_combination (u.x * v.x + u.z * v.z) * Real.sin_sq_add_cos_sq θ
  · simp only [transform, Vec3.dot]
    linear_combination (u.x * v.x + u.y * v.y) * Real.sin_sq_add_cos_sq θ

theorem transform_cross (u v : Vec3) (θ : ℝ) (ax : Axis) :
    Vec3.cross (transform u θ ax) (transform v θ ax) =
      transform (Vec3.cross u v) θ ax := by
  cases ax
  · ext
    · simp only [transform, Vec3.cross]
      linear_combination (u.y * v.z - u.z * v.y) * Real.sin_sq_add_cos_sq θ
    · simp only [transform, Vec3.cross]; ring
    · simp only [transform, Vec3.cross]; ring
  · ext
    · simp only [transform, Vec3.cross]; ring
    · simp only [transform, Vec3.cross]
      linear_combination (u.z * v.x - u.x * v.z) * Real.sin_sq_add_cos_sq θ
    · simp only [transform, Vec3.cross]; ring
  · ext
    · simp only [transform, Vec3.cross]; ring
    · simp only [transform, Vec3.cross]; ring
    · simp only [transform, Vec3.cross]
      linear_combination (u.x * v.y - u.y * v.x) * Real.sin_sq_add_cos_sq θ

theorem transform_smul (c : ℝ) (v : Vec3) (θ : ℝ) (ax : Axis) :
    transform (Vec3.smul c v) θ ax = Vec3.smul c (transform v θ ax) := by
  cases ax <;> ext <;> simp only [transform, Vec3.smul] <;> ring

theorem transform_sub (u v : Vec3) (θ : ℝ) (ax : Axis) :
    transform (Vec3.sub u v) θ ax = Vec3.sub (transform u θ ax) (transform v θ ax) := by
  cases ax <;> ext <;> simp only [transform, Vec3.sub] <;> ring

theorem transform_sdiv (v : Vec3) (c θ : ℝ) (ax : Axis) :
    transform (Vec3.sdiv v c) θ ax = Vec3.sdiv (transform v θ ax) c := by
  cases ax <;> ext <;> simp only [transform, Vec3.sdiv] <;> ring

theorem specRotSeq_dot (i Ω ω : ℝ) (u v : Vec3) :
    Vec3.dot (specRotSeq i Ω ω u) (specRotSeq i Ω ω v) = Vec3.dot u v := by
  unfold specRotSeq
  rw [transform_dot, transform_dot, transform_dot]

theorem specRotSeq_cross (i Ω ω : ℝ) (u v : Vec3) :
    Vec3.cross (specRotSeq i Ω ω u) (specRotSeq i Ω ω v) =
      specRotSeq i Ω ω (Vec3.cross u v) := by
  unfold specRotSeq
  rw [transform_cross, transform_cross, transform_cross]

theorem specRotSeq_norm (i Ω ω : ℝ) (v : Vec3) :
    Vec3.norm (specRotSeq i Ω ω v) = Vec3.norm v := by
  unfold Vec3.norm
  rw [specRotSeq_dot]

theorem specRotSeq_smul (i Ω ω c : ℝ) (v : Vec3) :
    specRotSeq i Ω ω (Vec3.smul c v) = Vec3.smul c (specRotSeq i Ω ω v) := by
  unfold specRotSeq
  rw [transform_smul, transform_smul, transform_smul]

theorem specRotSeq_sub (i Ω ω : ℝ) (u v : Vec3) :
    specRotSeq i Ω ω (Vec3.sub u v) =
      Vec3.sub (specRotSeq i Ω ω u) (specRotSeq i Ω ω v) := by
  unfold specRotSeq
  rw [transform_sub, transform_sub, transform_sub]

theorem specRotSeq_sdiv (i Ω ω c : ℝ) (v : Vec3) :
    specRotSeq i Ω ω (Vec3.sdiv v c) = Vec3.sdiv (specRotSeq i Ω ω v) c := by
  unfold specRotSeq
  rw [transform_sdiv, transform_sdiv, transform_sdiv]

theorem eVec_rot (k i Ω ω : ℝ) (r v : Vec3) :
    eVec k (specRotSeq i Ω ω r) (specRotSeq i Ω ω v) =
      specRotSeq i Ω ω (eVec k r v) := by
  unfold eVec
  rw [specRotSeq_dot, specRotSeq_dot, specRotSeq_norm,
    ← specRotSeq_smul, ← specRotSeq_smul, ← specRotSeq_sub, ← specRotSeq_sdiv]

/-- The rotation sequence applied to a vector along the z-axis. -/
theorem specRotSeq_zvec (i Ω ω m : ℝ) :
    specRotSeq i Ω ω ⟨0, 0, m⟩ =
      ⟨Real.sin Ω * Real.sin i * m, -(Real.cos Ω * Real.sin i * m),
        Real.cos i * m⟩ := by
  unfold specRotSeq transform
  ext <;> simp [Real.cos_neg, Real.sin_neg] <;> ring

/-- The rotation sequence applied to a vector along the x-axis. -/
theorem specRotSeq_xvec (i Ω ω e : ℝ) :
    specRotSeq i Ω ω ⟨e, 0, 0⟩ =
      ⟨e * (Real.cos Ω * Real.cos ω - Real.sin Ω * Real.cos i * Real.sin ω),
       e * (Real.sin Ω * Real.cos ω + Real.cos Ω * Real.cos i * Real.sin ω),
       e * (Real.sin i * Real.sin ω)⟩ := by
  unfold specRotSeq transform
  ext <;> simp [Real.cos_neg, Real.sin_neg] <;> ring

/-! ## The key property of atan2 followed by Python mod 2π -/

theorem pymod_atan2_eq {r θ : ℝ} (hr : 0 < r) (h0 : 0 ≤ θ) (h2 : θ < 2 * π) :
    pymod (atan2 (r * Real.sin θ) (r * Real.cos θ)) (2 * π) = θ := by
  have hπ : 0 < π := Real.pi_pos
  have h2π : 0 < 2 * π := by linarith
  rcases lt_trichotomy θ (π / 2) with hA | hB | hC
  · -- first quadrant (including θ = 0)
    have hcos : 0 < Real.cos θ := Real.cos_pos_of_mem_Ioo ⟨by linarith, hA⟩
    have hx : 0 < r * Real.cos θ := mul_pos hr hcos
    unfold atan2
    rw [if_pos hx, mul_div_mul_left _ _ (ne_of_gt hr), ← Real.tan_eq_sin_div_cos,
      Real.arctan_tan (by linarith) hA]
    exact pymod_eq_self h2π h0 (by linarith)
  · -- θ = π/2
    subst hB
    unfold atan2
    rw [Real.cos_pi_div_two, Real.sin_pi_div_two, mul_zero, mul_one]
    rw [if_neg (by linarith), if_neg (by linarith), if_pos hr]
    exact pymod_eq_self h2π (by linarith) (by linarith)
  · rcases le_or_lt θ π with hC1 | hC2
    · -- second quadrant (including θ = π)
      have hcos : Real.cos θ < 0 :=
        Real.cos_neg_of_pi_div_two_lt_of_lt hC (by linarith)
      have hsin : 0 ≤ Real.sin θ := Real.sin_nonneg_of_nonneg_of_le_pi h0 hC1
      have hx : r * Real.cos θ < 0 := mul_neg_of_pos_of_neg hr hcos
      have hy : 0 ≤ r * Real.sin θ := mul_nonneg hr.le hsin
      unfold atan2
      rw [if_neg (by linarith), if_pos hx, if_pos hy,
        mul_div_mul_left _ _ (ne_of_gt hr), ← Real.tan_eq_sin_div_cos,
        ← Real.tan_periodic.sub_eq θ,
        Real.arctan_tan (by linarith) (by linarith)]
      rw [show θ - π + π = θ by ring]
      exact pymod_eq_self h2π h0 (by linarith)
    · rcases lt_trichotomy θ (3 * π / 2) with hD | hE | hF
      · -- third quadrant
        have hsin' : 0 < Real.sin (θ - π) :=
          Real.sin_pos_of_pos_of_lt_pi (by linarith) (by linarith)
        have hrw : Real.sin (θ - π) = -Real.sin θ := by
          rw [Real.sin_sub]; simp
        have hsin : Real.sin θ < 0 := by rw [hrw] at hsin'; linarith
        have hcos : Real.cos θ < 0 :=
          Real.cos_neg_of_pi_div_two_lt_of_lt hC (by linarith)
        have hx : r * Real.cos θ < 0 := mul_neg_of_pos_of_neg hr hcos
        have hy : r * Real.sin θ < 0 := mul_neg_of_pos_of_neg hr hsin
        unfold atan2
        rw [if_neg (by linarith), if_pos hx, if_neg (by linarith),
          mul_div_mul_left _ _ (ne_of_gt hr), ← Real.tan_eq_sin_div_cos,
          ← Real.tan_periodic.sub_eq θ,
          Real.arctan_tan (by linarith) (by linarith)]
        rw [show θ - π - π = θ - 2 * π by ring, pymod_sub_cancel _ h2π]
        exact pymod_eq_self h2π h0 h2
      · -- θ = 3π/2
        have hcos : Real.cos θ = 0 := by
          rw [hE, show (3 : ℝ) * π / 2 = π + π / 2 by ring, Real.cos_add]
          simp
        have hsin : Real.sin θ = -1 := by
          rw [hE, show (3 : ℝ) * π / 2 = π + π / 2 by ring, Real.sin_add]
          simp
        unfold atan2
        rw [hcos, hsin, mul_zero]
        rw [if_neg (by linarith), if_neg (by linarith),
          if_neg (by nlinarith), if_pos (by nlinarith)]
        rw [show -(π / 2) = 3 * π / 2 - 2 * π by ring, pymod_sub_cancel _ h2π, hE]
        exact pymod_eq_self h2π (by linarith) (by linarith)
      · -- fourth quadrant
        have hcos' : Real.cos (θ - 2 * π) = Real.cos θ := Real.cos_periodic.sub_eq θ
        have hcos : 0 < Real.cos θ := by
          rw [← hcos']
          exact Real.cos_pos_of_mem_Ioo ⟨by linarith, by linarith⟩
        have hx : 0 < r * Real.cos θ := mul_pos hr hcos
        have htan : Real.tan (θ - 2 * π) = Real.tan θ := by
          rw [show θ - 2 * π = θ - π - π by ring, Real.tan_periodic.sub_eq,
            Real.tan_periodic.sub_eq]
        unfold atan2
        rw [if_pos hx, mul_div_mul_left _ _ (ne_of_gt hr), ← Real.tan_eq_sin_div_cos,
          ← htan, Real.arctan_tan (by linarith) (by linarith)]
        rw [pymod_sub_cancel _ h2π]
        exact pymod_eq_self h2π h0 h2

/-! ## Perifocal-frame computations -/

theorem one_add_ecc_cos_pos {ecc : ℝ} (nu : ℝ) (h0 : 0 ≤ ecc) (h1 : ecc < 1) :
    0 < 1 + ecc * Real.cos nu := by
  have h := mul_le_mul_of_nonneg_left (Real.neg_one_le_cos nu) h0
  nlinarith

theorem semilatus_pos {a ecc : ℝ} (ha : 0 < a) (h0 : 0 ≤ ecc) (h1 : ecc < 1) :
    0 < a * (1 - ecc ^ 2) := by
  have h2 : 0 < (1 - ecc) * (1 + ecc) := mul_pos (by linarith) (by linarith)
  nlinarith

theorem rPQW_norm {a ecc : ℝ} (nu : ℝ) (ha : 0 < a) (h0 : 0 ≤ ecc) (h1 : ecc < 1) :
    Vec3.norm (rPQW a ecc nu) =
      a * (1 - ecc ^ 2) / (1 + ecc * Real.cos nu) := by
  have hden := one_add_ecc_cos_pos nu h0 h1
  have hp := semilatus_pos ha h0 h1
  have hρ : 0 < a * (1 - ecc ^ 2) / (1 + ecc * Real.cos nu) := div_pos hp hden
  have hdot : Vec3.dot (rPQW a ecc nu) (rPQW a ecc nu) =
      (a * (1 - ecc ^ 2) / (1 + ecc * Real.cos nu)) ^ 2 := by
    unfold rPQW Vec3.smul Vec3.dot
    simp only
    ring_nf
    simp only [Real.sin_sq]
    field_simp
    ring
  unfold Vec3.norm
  rw [hdot, Real.sqrt_sq hρ.le]

theorem cross_pqw {k a ecc : ℝ} (nu : ℝ) (hk : 0 < k) (ha : 0 < a)
    (h0 : 0 ≤ ecc) (h1 : ecc < 1) :
    Vec3.cross (rPQW a ecc nu) (vPQW k a ecc nu) =
      ⟨0, 0, Real.sqrt (k * (a * (1 - ecc ^ 2)))⟩ := by
  have hden := one_add_ecc_cos_pos nu h0 h1
  have hp := semilatus_pos ha h0 h1
  have hsp : Real.sqrt (k / (a * (1 - ecc ^ 2))) * (a * (1 - ecc ^ 2)) =
      Real.sqrt (k * (a * (1 - ecc ^ 2))) := by
    rw [show k * (a * (1 - ecc ^ 2)) =
        k / (a * (1 - ecc ^ 2)) * (a * (1 - ecc ^ 2)) ^ 2 by field_simp; ring]
    rw [Real.sqrt_mul (div_nonneg hk.le hp.le), Real.sqrt_sq hp.le]
  unfold rPQW vPQW Vec3.cross Vec3.smul
  ext
  · simp only; ring
  · simp only; ring
  · simp only
    rw [← hsp]
    generalize Real.sqrt (k / (a * (1 - ecc ^ 2))) = S
    ring_nf
    simp only [Real.sin_sq]
    field_simp
    ring

theorem dot_vPQW_vPQW {k a ecc : ℝ} (nu : ℝ) (hk : 0 < k) (ha : 0 < a)
    (h0 : 0 ≤ ecc) (h1 : ecc < 1) :
    Vec3.dot (vPQW k a ecc nu) (vPQW k a ecc nu) =
      k / (a * (1 - ecc ^ 2)) * (1 + 2 * ecc * Real.cos nu + ecc ^ 2) := by
  have hp := semilatus_pos ha h0 h1
  unfold vPQW Vec3.smul Vec3.dot
  simp only
  generalize hS : Real.sqrt (k / (a * (1 - ecc ^ 2))) = S
  have hS2 : S ^ 2 = k / (a * (1 - ecc ^ 2)) := by
    rw [← hS]
    exact Real.sq_sqrt (div_nonneg hk.le hp.le)
  ring_nf
  simp only [hS2, Real.sin_sq]
  ring

theorem dot_rPQW_vPQW {k a ecc : ℝ} (nu : ℝ) :
    Vec3.dot (rPQW a ecc nu) (vPQW k a ecc nu) =
      Real.sqrt (k / (a * (1 - ecc ^ 2))) *
        (a * (1 - ecc ^ 2) * ecc * Real.sin nu / (1 + ecc * Real.cos nu)) := by
  unfold rPQW vPQW Vec3.smul Vec3.dot
  simp only
  ring

set_option maxHeartbeats 3200000 in
theorem eVec_pqw {k a ecc : ℝ} (nu : ℝ) (hk : 0 < k) (ha : 0 < a)
    (h0 : 0 ≤ ecc) (h1 : ecc < 1) :
    eVec k (rPQW a ecc nu) (vPQW k a ecc nu) = ⟨ecc, 0, 0⟩ := by
  have hden := one_add_ecc_cos_pos nu h0 h1
  have hp := semilatus_pos ha h0 h1
  have h1e : 0 < 1 - ecc ^ 2 := by nlinarith
  have hnorm := rPQW_norm nu ha h0 h1
  unfold eVec
  rw [hnorm, dot_vPQW_vPQW nu hk ha h0 h1, dot_rPQW_vPQW nu]
  have hA : k / (a * (1 - ecc ^ 2)) * (1 + 2 * ecc * Real.cos nu + ecc ^ 2) -
      k / (a * (1 - ecc ^ 2) / (1 + ecc * Real.cos nu)) =
      k * ecc / (a * (1 - ecc ^ 2)) * (Real.cos nu + ecc) := by
    field_simp
    ring
  rw [hA]
  unfold rPQW vPQW Vec3.smul Vec3.sub Vec3.sdiv
  ext
  all_goals simp only
  all_goals generalize hS : Real.sqrt (k / (a * (1 - ecc ^ 2))) = S
  all_goals have hS2 : S ^ 2 = k / (a * (1 - ecc ^ 2)) := hS ▸ Real.sq_sqrt (div_nonneg hk.le hp.le)
  all_goals have hS2m : S ^ 2 * (a * (1 - ecc ^ 2)) = k := by rw [hS2]; field_simp
  all_goals field_simp
  all_goals simp only [← hS2m]
  all_goals ring_nf
  all_goals simp only [Real.sin_sq]
  all_goals ring

/-! ## C2 and C3: the conversion routines implement the spec formulas -/

theorem rPQW_eq_spec (a ecc nu : ℝ) :
    rPQW a ecc nu = Vec3.smul (a * (1 - ecc ^ 2) / (1 + ecc * Real.cos nu))
      ⟨Real.cos nu, Real.sin nu, 0⟩ := by
  unfold rPQW Vec3.smul
  ext <;> simp <;> ring

/-- C2: for every input, `coe2rv` builds the perifocal vectors
`r_pqw = p/(1+ecc·cos ν)·(cos ν, sin ν, 0)` and
`v_pqw = √(k/p)·(−sin ν, ecc+cos ν, 0)` with `p = a·(1−ecc²)` and maps
each of them to the inertial frame by rotating by `−argp` about z, then
`−inc` about x, then `−raan` about z, the same sequence being applied
independently to position and velocity.  (Proved for all real inputs, in
particular those with `k > 0` and `0 ≤ ecc < 1`.) -/
theorem coe2rv_implements_spec (k a ecc inc raan argp nu : ℝ) :
    coe2rv k a ecc inc raan argp nu = coe2rv_spec k a ecc inc raan argp nu := by
  unfold coe2rv coe2rv_spec specRotSeq
  rw [rPQW_eq_spec]
  rfl

/-- C3: `rv2coe` computes the elements exactly by the reference formulas
of §4.3: `h = r×v`, `n = ẑ×h/‖h‖`, `e = ((v·v − k/‖r‖)·r − (r·v)·v)/k`,
`ecc = ‖e‖`, `p = h·h/k`, `a = p/(1−ecc²)`, `inc = arccos(h_z/‖h‖)`,
`raan = atan2(n_y, n_x) mod 2π`, `argp = atan2(h·(n×e)/‖h‖, e·n) mod 2π`,
`nu = atan2(h·(e×r)/‖h‖, r·e) mod 2π`.  (Proved for all real inputs, in
particular those with `k > 0` and non-collinear `r ≠ 0`, `v`.) -/
theorem rv2coe_implements_spec (k : ℝ) (r v : Vec3) :
    rv2coe k r v = rv2coe_spec k r v := by
  unfold rv2coe rv2coe_spec hVec nVec eVec
  rfl

/-! ## C4: ranges of the angle outputs -/

/-- C4: for every input to `rv2coe` with `k > 0` and non-collinear
`r ≠ 0`, `v` (so that `r × v ≠ 0`), the four angle outputs lie in
`[0, 2π)`: `raan`, `argp` and `nu` are reduced modulo `2π` into
`[0, 2π)`, and `inc` returned by `arccos` lies in `[0, π] ⊆ [0, 2π)`. -/
theorem rv2coe_angle_ranges (k : ℝ) (r v : Vec3)
    (hk : 0 < k) (hr : r ≠ ⟨0, 0, 0⟩) (hrv : Vec3.cross r v ≠ ⟨0, 0, 0⟩) :
    0 ≤ (rv2coe k r v).2.2.1 ∧ (rv2coe k r v).2.2.1 ≤ π ∧
      (rv2coe k r v).2.2.1 < 2 * π ∧
    0 ≤ (rv2coe k r v).2.2.2.1 ∧ (rv2coe k r v).2.2.2.1 < 2 * π ∧
    0 ≤ (rv2coe k r v).2.2.2.2.1 ∧ (rv2coe k r v).2.2.2.2.1 < 2 * π ∧
    0 ≤ (rv2coe k r v).2.2.2.2.2 ∧ (rv2coe k r v).2.2.2.2.2 < 2 * π := by
  have h2π : 0 < 2 * π := by positivity
  unfold rv2coe
  refine ⟨Real.arccos_nonneg _, Real.arccos_le_pi _, ?_,
    pymod_nonneg _ h2π, pymod_lt _ h2π, pymod_nonneg _ h2π, pymod_lt _ h2π,
    pymod_nonneg _ h2π, pymod_lt _ h2π⟩
  have := Real.arccos_le_pi ((hVec r v).z / Vec3.norm (hVec r v))
  have hπ : 0 < π := Real.pi_pos
  linarith

/-- Witness for C4 at `k = 1`, `r = (1,0,0)`, `v = (0,1,0)`. -/
theorem rv2coe_angle_ranges_witness :
    (0 : ℝ) < 1 ∧ (⟨1, 0, 0⟩ : Vec3) ≠ ⟨0, 0, 0⟩ ∧
      Vec3.cross ⟨1, 0, 0⟩ ⟨0, 1, 0⟩ ≠ ⟨0, 0, 0⟩ ∧
      (0 ≤ (rv2coe 1 ⟨1, 0, 0⟩ ⟨0, 1, 0⟩).2.2.1 ∧
        (rv2coe 1 ⟨1, 0, 0⟩ ⟨0, 1, 0⟩).2.2.1 ≤ π ∧
        (rv2coe 1 ⟨1, 0, 0⟩ ⟨0, 1, 0⟩).2.2.1 < 2 * π ∧
      0 ≤ (rv2coe 1 ⟨1, 0, 0⟩ ⟨0, 1, 0⟩).2.2.2.1 ∧
        (rv2coe 1 ⟨1, 0, 0⟩ ⟨0, 1, 0⟩).2.2.2.1 < 2 * π ∧
      0 ≤ (rv2coe 1 ⟨1, 0, 0⟩ ⟨0, 1, 0⟩).2.2.2.2.1 ∧
        (rv2coe 1 ⟨1, 0, 0⟩ ⟨0, 1, 0⟩).2.2.2.2.1 < 2 * π ∧
      0 ≤ (rv2coe 1 ⟨1, 0, 0⟩ ⟨0, 1, 0⟩).2.2.2.2.2 ∧
        (rv2coe 1 ⟨1, 0, 0⟩ ⟨0, 1, 0⟩).2.2.2.2.2 < 2 * π) := by
  have h1 : (⟨1, 0, 0⟩ : Vec3) ≠ ⟨0, 0, 0⟩ := by
    intro h
    have := congrArg Vec3.x h
    norm_num at this
  have h2 : Vec3.cross ⟨1, 0, 0⟩ ⟨0, 1, 0⟩ ≠ ⟨0, 0, 0⟩ := by
    intro h
    have := congrArg Vec3.z h
    simp [Vec3.cross] at this
  exact ⟨by norm_num, h1, h2,
    rv2coe_angle_ranges 1 ⟨1, 0, 0⟩ ⟨0, 1, 0⟩ (by norm_num) h1 h2⟩

/-! ## C1: the round trip rv2coe ∘ coe2rv is the identity -/

/-- C1: for every non-degenerate closed orbit — `k > 0`, `a > 0`,
`0 < ecc < 1` (eccentricity bounded away from 0 in that it is strictly
positive), inclination strictly between 0 and π, and `raan`, `argp`, `nu`
in the principal range `[0, 2π)` — applying `rv2coe` to the `(r, v)` pair
produced by `coe2rv` returns exactly the original six elements (real
arithmetic makes the spec's "within numerical tolerance" exact). -/
theorem coe2rv_rv2coe_roundtrip (k a ecc inc raan argp nu : ℝ)
    (hk : 0 < k) (ha : 0 < a) (he0 : 0 < ecc) (he1 : ecc < 1)
    (hi0 : 0 < inc) (hiπ : inc < π)
    (hΩ0 : 0 ≤ raan) (hΩ2 : raan < 2 * π)
    (hω0 : 0 ≤ argp) (hω2 : argp < 2 * π)
    (hν0 : 0 ≤ nu) (hν2 : nu < 2 * π) :
    rv2coe k (coe2rv k a ecc inc raan argp nu).1 (coe2rv k a ecc inc raan argp nu).2 =
      (a, ecc, inc, raan, argp, nu) := by
  have h0e : 0 ≤ ecc := he0.le
  have hden := one_add_ecc_cos_pos nu h0e he1
  have hp := semilatus_pos ha h0e he1
  have h1e : 0 < 1 - ecc ^ 2 := by nlinarith
  have hsi : 0 < Real.sin inc := Real.sin_pos_of_pos_of_lt_pi hi0 hiπ
  have hM : 0 < Real.sqrt (k * (a * (1 - ecc ^ 2))) :=
    Real.sqrt_pos.mpr (mul_pos hk hp)
  set R1 := (coe2rv k a ecc inc raan argp nu).1 with hR1def
  set R2 := (coe2rv k a ecc inc raan argp nu).2 with hR2def
  set M := Real.sqrt (k * (a * (1 - ecc ^ 2))) with hMdef
  have hR1 : R1 = specRotSeq inc raan argp (rPQW a ecc nu) := hR1def.trans rfl
  have hR2 : R2 = specRotSeq inc raan argp (vPQW k a ecc nu) := hR2def.trans rfl
  have hH : hVec R1 R2 = specRotSeq inc raan argp ⟨0, 0, M⟩ := by
    rw [hR1, hR2]
    unfold hVec
    rw [specRotSeq_cross, cross_pqw nu hk ha h0e he1, hMdef]
  have hHexp : hVec R1 R2 =
      ⟨Real.sin raan * Real.sin inc * M, -(Real.cos raan * Real.sin inc * M),
        Real.cos inc * M⟩ := by
    rw [hH, specRotSeq_zvec]
  have hnormH : Vec3.norm (hVec R1 R2) = M := by
    rw [hH, specRotSeq_norm]
    unfold Vec3.norm Vec3.dot
    simp only
    rw [show (0 : ℝ) * 0 + 0 * 0 + M * M = M ^ 2 by ring, Real.sqrt_sq hM.le]
  have hdotH : Vec3.dot (hVec R1 R2) (hVec R1 R2) = k * (a * (1 - ecc ^ 2)) := by
    rw [hH, specRotSeq_dot]
    unfold Vec3.dot
    simp only
    rw [show (0 : ℝ) * 0 + 0 * 0 + M * M = M ^ 2 by ring, hMdef]
    exact Real.sq_sqrt (mul_pos hk hp).le
  have hE : eVec k R1 R2 = specRotSeq inc raan argp ⟨ecc, 0, 0⟩ := by
    rw [hR1, hR2, eVec_rot, eVec_pqw nu hk ha h0e he1]
  have hEexp : eVec k R1 R2 =
      ⟨ecc * (Real.cos raan * Real.cos argp - Real.sin raan * Real.cos inc * Real.sin argp),
       ecc * (Real.sin raan * Real.cos argp + Real.cos raan * Real.cos inc * Real.sin argp),
       ecc * (Real.sin inc * Real.sin argp)⟩ := by
    rw [hE, specRotSeq_xvec]
  have hnormE : Vec3.norm (eVec k R1 R2) = ecc := by
    rw [hE, specRotSeq_norm]
    unfold Vec3.norm Vec3.dot
    simp only
    rw [show ecc * ecc + 0 * 0 + 0 * 0 = ecc ^ 2 by ring, Real.sqrt_sq h0e]
  have hN : nVec R1 R2 =
      ⟨Real.sin inc * Real.cos raan, Real.sin inc * Real.sin raan, 0⟩ := by
    unfold nVec
    rw [hnormH, hHexp]
    unfold Vec3.cross Vec3.sdiv
    ext
    all_goals simp only
    · field_simp
      ring
    · field_simp
      ring
    · field_simp
  have hxargp : Vec3.dot (eVec k R1 R2) (nVec R1 R2) =
      ecc * Real.sin inc * Real.cos argp := by
    rw [hEexp, hN]
    unfold Vec3.dot
    simp only
    linear_combination (ecc * Real.cos argp * Real.sin inc) * Real.sin_sq_add_cos_sq raan
  have hyargp : Vec3.dot (hVec R1 R2) (Vec3.cross (nVec R1 R2) (eVec k R1 R2)) /
      Vec3.norm (hVec R1 R2) = ecc * Real.sin inc * Real.sin argp := by
    rw [hnormH, hHexp, hN, hEexp]
    unfold Vec3.dot Vec3.cross
    simp only
    rw [div_eq_iff hM.ne']
    linear_combination
      (M * ecc * Real.sin inc * Real.sin argp * (Real.sin raan ^ 2 + Real.cos raan ^ 2)) *
          Real.sin_sq_add_cos_sq inc +
        (M * ecc * Real.sin inc * Real.sin argp) * Real.sin_sq_add_cos_sq raan
  have hxnu : Vec3.dot R1 (eVec k R1 R2) =
      ecc * (a * (1 - ecc ^ 2) / (1 + ecc * Real.cos nu)) * Real.cos nu := by
    rw [hE, hR1, specRotSeq_dot]
    unfold rPQW Vec3.smul Vec3.dot
    simp only
    field_simp
    ring
  have hynu : Vec3.dot (hVec R1 R2) (Vec3.cross (eVec k R1 R2) R1) /
      Vec3.norm (hVec R1 R2) =
      ecc * (a * (1 - ecc ^ 2) / (1 + ecc * Real.cos nu)) * Real.sin nu := by
    rw [hnormH, hH, hE, hR1, specRotSeq_cross, specRotSeq_dot]
    unfold rPQW Vec3.cross Vec3.dot Vec3.smul
    simp only
    rw [div_eq_iff hM.ne']
    field_simp
    ring
  simp only [rv2coe, Prod.mk.injEq]
  refine ⟨?_, ?_, ?_, ?_, ?_, ?_⟩
  · rw [hdotH, hnormE]
    field_simp
  · exact hnormE
  · rw [hnormH, hHexp]
    show Real.arccos (Real.cos inc * M / M) = inc
    rw [mul_div_assoc, div_self hM.ne', mul_one]
    exact Real.arccos_cos hi0.le hiπ.le
  · rw [hN]
    show pymod (atan2 (Real.sin inc * Real.sin raan) (Real.sin inc * Real.cos raan))
      (2 * π) = raan
    exact pymod_atan2_eq hsi hΩ0 hΩ2
  · rw [hyargp, hxargp]
    exact pymod_atan2_eq (mul_pos he0 hsi) hω0 hω2
  · rw [hynu, hxnu]
    exact pymod_atan2_eq (mul_pos he0 (div_pos hp hden)) hν0 hν2

/-- Witness for C1 at `k = 1`, `a = 1`, `ecc = 1/2`, `inc = π/2`,
`raan = argp = nu = 0`. -/
theorem coe2rv_rv2coe_roundtrip_witness :
    (0 : ℝ) < 1 ∧ (0 : ℝ) < 1/2 ∧ (1 : ℝ)/2 < 1 ∧ 0 < π/2 ∧ π/2 < π ∧
    (0 : ℝ) ≤ 0 ∧ (0 : ℝ) < 2 * π ∧
    rv2coe 1 (coe2rv 1 1 (1/2) (π/2) 0 0 0).1 (coe2rv 1 1 (1/2) (π/2) 0 0 0).2 =
      (1, 1/2, π/2, 0, 0, 0) := by
  have hπ : (0 : ℝ) < π := Real.pi_pos
  exact ⟨one_pos, by norm_num, by norm_num, by linarith, by linarith,
    le_refl 0, by linarith,
    coe2rv_rv2coe_roundtrip 1 1 (1/2) (π/2) 0 0 0 one_pos one_pos (by norm_num)
      (by norm_num) (by linarith) (by linarith) (le_refl 0) (by linarith)
      (le_refl 0) (by linarith) (le_refl 0) (by linarith)⟩

/-! ## C5: the kepler wrapper's contract with the anomaly solver -/

/-- C5: `kepler(k, r0, v0, tof)` consults the anomaly-solver collaborator
only at the single call `solve r0 v0 tof k` (the result is unchanged
under replacing the solver by any solver agreeing there), raises a
`RuntimeError` carrying the solver's (stripped) status verbatim if and
only if that status is not `"ok"` — returning no result object on that
path — and on status `"ok"` returns exactly the solver's updated vectors. -/
theorem kepler_solver_contract (solve : Solver) (k : ℝ) (r0 v0 : Vec3) (tof : ℝ) :
    (∀ solve2 : Solver, solve2 r0 v0 tof k = solve r0 v0 tof k →
      kepler solve2 k r0 v0 tof = kepler solve k r0 v0 tof) ∧
    (pyStrip (solve r0 v0 tof k).error ≠ "ok" →
      kepler solve k r0 v0 tof = Except.error (PyError.runtimeError
        ("There was an error: " ++ pyStrip (solve r0 v0 tof k).error))) ∧
    (pyStrip (solve r0 v0 tof k).error = "ok" →
      kepler solve k r0 v0 tof =
        Except.ok ((solve r0 v0 tof k).r, (solve r0 v0 tof k).v)) ∧
    (∀ e, kepler solve k r0 v0 tof = Except.error e →
      pyStrip (solve r0 v0 tof k).error ≠ "ok") := by
  refine ⟨?_, ?_, ?_, ?_⟩
  · intro solve2 h
    unfold kepler
    rw [h]
  · intro h
    unfold kepler
    rw [if_pos h]
  · intro h
    unfold kepler
    rw [if_neg (not_not_intro h)]
  · intro e h hok
    unfold kepler at h
    rw [if_neg (not_not_intro hok)] at h
    exact Except.noConfusion h

/-- Witness for C5: a succeeding and a failing concrete solver. -/
theorem kepler_solver_contract_witness :
    (pyStrip "  ok  " = "ok") ∧
    kepler solverOkW 1 ⟨1, 2, 3⟩ ⟨4, 5, 6⟩ 0 = Except.ok (⟨1, 2, 3⟩, ⟨4, 5, 6⟩) ∧
    (pyStrip "divergence" ≠ "ok") ∧
    kepler solverBadW 1 ⟨1, 2, 3⟩ ⟨4, 5, 6⟩ 0 =
      Except.error (PyError.runtimeError "There was an error: divergence") := by
  refine ⟨by decide, ?_, by decide, ?_⟩
  · exact (kepler_solver_contract solverOkW 1 ⟨1, 2, 3⟩ ⟨4, 5, 6⟩ 0).2.2.1 (by decide)
  · exact (kepler_solver_contract solverBadW 1 ⟨1, 2, 3⟩ ⟨4, 5, 6⟩ 0).2.1 (by decide)

/-! ## C6: the element-count check comes first -/

/-- C6: for every elements sequence whose length is not 6,
`from_elements` raises the invalid-element-count `ValueError` — whatever
the units or values of the entries, so before the unit-consistency check,
before `coe2rv`, and with no `State` constructed. -/
theorem from_elements_length_check (attractor : Body) (elements : List Qty)
    (epoch : ℝ) (h : elements.length ≠ 6) :
    State.from_elements attractor elements epoch =
      Except.error (PyError.valueError "Incorrect number of parameters") := by
  rcases elements with _ | ⟨a, _ | ⟨b, _ | ⟨c, _ | ⟨d, _ | ⟨e, _ | ⟨f, _ | ⟨g, rest⟩⟩⟩⟩⟩⟩⟩
  · rfl
  · rfl
  · rfl
  · rfl
  · rfl
  · rfl
  · simp at h
  · rfl

/-- Witness for C6 at a 5-element list with valid units (only the length
check can reject it). -/
theorem from_elements_length_check_witness :
    ([⟨7000, km⟩, ⟨0, one_unit⟩, ⟨0, radian⟩, ⟨0, radian⟩,
        ⟨(0 : ℝ), radian⟩] : List Qty).length ≠ 6 ∧
    State.from_elements earthW
        [⟨7000, km⟩, ⟨0, one_unit⟩, ⟨0, radian⟩, ⟨0, radian⟩, ⟨(0 : ℝ), radian⟩] 0 =
      Except.error (PyError.valueError "Incorrect number of parameters") := by
  refine ⟨by decide, ?_⟩
  exact from_elements_length_check earthW _ 0 (by decide)

/-! ## C7: which unit `from_elements` converts `k` to -/

/-- Counterexample for C7: a 6-element list expressed in metres passes
the dimension check (so it is a valid input), yet the unit `from_elements`
converts `k` to is the fixed `km³/s²`, not the cube of the elements'
length unit (`m³/s²`) as the claim states. -/
theorem from_elements_k_units_counterexample :
    check_units [⟨7000000, metre⟩, ⟨1/2, one_unit⟩, ⟨1, radian⟩, ⟨1, radian⟩,
        ⟨1, radian⟩, ⟨(1 : ℝ), radian⟩]
      [metre, one_unit, radian, radian, radian, radian] ∧
    (from_elements_k earthW).unit ≠ elementsKUnit metre := by
  refine ⟨by decide, ?_⟩
  intro h
  have hs := congrArg AUnit.scale h
  simp [from_elements_k, Qty.to, km3s2, elementsKUnit, metre] at hs

/-- C7 (amended): for every valid 6-element input, `from_elements`
converts the attractor's gravitational parameter to the fixed working
unit `km³/s²` (which coincides with the elements' length/time units only
when those are km/s-based) before invoking `coe2rv`, stores the resulting
vectors, and pre-populates the element cache with the exact input
elements. -/
theorem from_elements_valid (attractor : Body) (a ecc inc raan argp nu : Qty)
    (epoch : ℝ)
    (hu : check_units [a, ecc, inc, raan, argp, nu]
      [metre, one_unit, radian, radian, radian, radian]) :
    State.from_elements attractor [a, ecc, inc, raan, argp, nu] epoch =
      Except.ok { attractor := attractor,
                  r := (coe2rvQ (from_elements_k attractor) a ecc inc raan argp nu).1,
                  v := (coe2rvQ (from_elements_k attractor) a ecc inc raan argp nu).2,
                  epoch := epoch,
                  cache := some [a, ecc, inc, raan, argp, nu] } := by
  have hred : State.from_elements attractor [a, ecc, inc, raan, argp, nu] epoch =
      if ¬ check_units [a, ecc, inc, raan, argp, nu]
          [metre, one_unit, radian, radian, radian, radian] then
        Except.error (PyError.unitsError "Units must be consistent")
      else
        Except.ok { attractor := attractor,
                    r := (coe2rvQ (from_elements_k attractor) a ecc inc raan argp nu).1,
                    v := (coe2rvQ (from_elements_k attractor) a ecc inc raan argp nu).2,
                    epoch := epoch,
                    cache := some [a, ecc, inc, raan, argp, nu] } := rfl
  rw [hred, if_neg (not_not_intro hu)]

/-- Witness for C7's amended theorem at km/s-based elements. -/
theorem from_elements_valid_witness :
    check_units [⟨7000, km⟩, ⟨1/2, one_unit⟩, ⟨0, radian⟩, ⟨0, radian⟩,
        ⟨0, radian⟩, ⟨(0 : ℝ), radian⟩]
      [metre, one_unit, radian, radian, radian, radian] ∧
    State.from_elements earthW
        [⟨7000, km⟩, ⟨1/2, one_unit⟩, ⟨0, radian⟩, ⟨0, radian⟩,
          ⟨0, radian⟩, ⟨(0 : ℝ), radian⟩] 0 =
      Except.ok { attractor := earthW,
                  r := (coe2rvQ (from_elements_k earthW) ⟨7000, km⟩ ⟨1/2, one_unit⟩
                    ⟨0, radian⟩ ⟨0, radian⟩ ⟨0, radian⟩ ⟨(0 : ℝ), radian⟩).1,
                  v := (coe2rvQ (from_elements_k earthW) ⟨7000, km⟩ ⟨1/2, one_unit⟩
                    ⟨0, radian⟩ ⟨0, radian⟩ ⟨0, radian⟩ ⟨(0 : ℝ), radian⟩).2,
                  epoch := 0,
                  cache := some [⟨7000, km⟩, ⟨1/2, one_unit⟩, ⟨0, radian⟩,
                    ⟨0, radian⟩, ⟨0, radian⟩, ⟨(0 : ℝ), radian⟩] } := by
  refine ⟨by decide, ?_⟩
  exact from_elements_valid earthW _ _ _ _ _ _ 0 (by decide)

/-! ## C8: propagate returns a fresh state and mutates nothing -/

/-- C8: `s.propagate(t)` leaves the receiver untouched (second component
of the state-passing result), and when the solver reports `"ok"` it
returns a brand-new `State` with the same attractor object, the epoch
advanced by the time of flight, the solver's updated vectors (tagged with
the working units), and an empty element cache. -/
theorem propagate_contract (solve : Solver) (s : State) (tof : Qty) :
    (State.propagate solve s tof).2 = s ∧
    (pyStrip (solve (s.r.to km).vec (s.v.to kmps).vec (tof.to second).val
        (s.attractor.k.to km3s2).val).error = "ok" →
      State.propagate solve s tof =
        (Except.ok { attractor := s.attractor,
                     r := ⟨(solve (s.r.to km).vec (s.v.to kmps).vec (tof.to second).val
                            (s.attractor.k.to km3s2).val).r, km⟩,
                     v := ⟨(solve (s.r.to km).vec (s.v.to kmps).vec (tof.to second).val
                            (s.attractor.k.to km3s2).val).v, kmps⟩,
                     epoch := s.epoch + (tof.to second).val,
                     cache := none }, s)) := by
  constructor
  · cases hk : kepler solve (s.attractor.k.to km3s2).val (s.r.to km).vec
        (s.v.to kmps).vec (tof.to second).val with
    | error e => simp [State.propagate, hk]
    | ok rv => simp [State.propagate, hk, State.from_vectors]
  · intro hok
    have h1 : kepler solve (s.attractor.k.to km3s2).val (s.r.to km).vec
        (s.v.to kmps).vec (tof.to second).val =
        Except.ok ((solve (s.r.to km).vec (s.v.to kmps).vec (tof.to second).val
            (s.attractor.k.to km3s2).val).r,
          (solve (s.r.to km).vec (s.v.to kmps).vec (tof.to second).val
            (s.attractor.k.to km3s2).val).v) := by
      unfold kepler
      rw [if_neg (not_not_intro hok)]
    simp only [State.propagate, h1]
    rfl

/-- Witness for C8 with the always-succeeding solver. -/
theorem propagate_contract_witness :
    pyStrip (solverOkW (stateW.r.to km).vec (stateW.v.to kmps).vec
        ((Qty.mk (1 : ℝ) second).to second).val
        (stateW.attractor.k.to km3s2).val).error = "ok" ∧
    (State.propagate solverOkW stateW ⟨(1 : ℝ), second⟩).2 = stateW ∧
    State.propagate solverOkW stateW ⟨(1 : ℝ), second⟩ =
      (Except.ok { attractor := stateW.attractor,
                   r := ⟨(solverOkW (stateW.r.to km).vec (stateW.v.to kmps).vec
                          ((Qty.mk (1 : ℝ) second).to second).val
                          (stateW.attractor.k.to km3s2).val).r, km⟩,
                   v := ⟨(solverOkW (stateW.r.to km).vec (stateW.v.to kmps).vec
                          ((Qty.mk (1 : ℝ) second).to second).val
                          (stateW.attractor.k.to km3s2).val).v, kmps⟩,
                   epoch := stateW.epoch + ((Qty.mk (1 : ℝ) second).to second).val,
                   cache := none }, stateW) := by
  refine ⟨by decide, ?_, ?_⟩
  · exact (propagate_contract solverOkW stateW ⟨(1 : ℝ), second⟩).1
  · exact (propagate_contract solverOkW stateW ⟨(1 : ℝ), second⟩).2 (by decide)

/-! ## C9: the elements accessor and its write-once cache -/

/-- C9: the `elements` accessor returns the cached elements when the
cache is populated (leaving the state untouched); otherwise it computes
the six elements by `rv2coe` on `k`, `r`, `v` converted to the working
unit system (km, s), converts the four angles to degrees (multiplying by
`180/π`) while the semi-major axis keeps `km` and the eccentricity stays
dimensionless, writes the result into the cache, and returns it; a second
accessor call on the resulting state returns the same list from the cache
(single `rv2coe` invocation across both calls). -/
theorem elements_accessor_contract (s : State) :
    (∀ el, s.cache = some el → State.elements s = (el, s)) ∧
    (s.cache = none →
      State.elements s =
        ([⟨(rv2coe (s.attractor.k.to km3s2).val (s.r.to km).vec (s.v.to kmps).vec).1, km⟩,
          ⟨(rv2coe (s.attractor.k.to km3s2).val (s.r.to km).vec (s.v.to kmps).vec).2.1,
            one_unit⟩,
          ⟨(rv2coe (s.attractor.k.to km3s2).val (s.r.to km).vec (s.v.to kmps).vec).2.2.1
            * (180 / π), degree⟩,
          ⟨(rv2coe (s.attractor.k.to km3s2).val (s.r.to km).vec (s.v.to kmps).vec).2.2.2.1
            * (180 / π), degree⟩,
          ⟨(rv2coe (s.attractor.k.to km3s2).val (s.r.to km).vec (s.v.to kmps).vec).2.2.2.2.1
            * (180 / π), degree⟩,
          ⟨(rv2coe (s.attractor.k.to km3s2).val (s.r.to km).vec (s.v.to kmps).vec).2.2.2.2.2
            * (180 / π), degree⟩],
         { s with cache := some (State.elements s).1 })) ∧
    (State.elements (State.elements s).2 = ((State.elements s).1, (State.elements s).2)) := by
  have hdeg : ∀ x : ℝ, (Qty.mk x radian).to degree = ⟨x * (180 / π), degree⟩ := by
    intro x
    unfold Qty.to degree radian
    simp only [Qty.mk.injEq, and_true]
    rw [one_div_div]
  refine ⟨?_, ?_, ?_⟩
  · intro el h
    unfold State.elements
    rw [h]
  · intro h
    unfold State.elements
    rw [h]
    simp only [hdeg]
  · rcases hc : s.cache with _ | el <;> simp [State.elements, hc]

/-- Witness for C9: a cache hit on a populated state and idempotence on a
fresh state. -/
theorem elements_accessor_contract_witness :
    stateCachedW.cache = some [⟨1, km⟩] ∧
    State.elements stateCachedW = ([⟨1, km⟩], stateCachedW) ∧
    stateW.cache = none ∧
    State.elements (State.elements stateW).2 =
      ((State.elements stateW).1, (State.elements stateW).2) := by
  refine ⟨rfl, ?_, rfl, ?_⟩
  · exact (elements_accessor_contract stateCachedW).1 [⟨1, km⟩] rfl
  · exact (elements_accessor_contract stateW).2.2

/-! ## C10: which units the accessor returns, by construction path -/

/-- C10: a state built by `from_elements` caches the caller-supplied
elements list itself, so the accessor returns exactly that list with its
original units (angles in radians when supplied in radians, never
converted to degrees), while a state built by `from_vectors` starts with
an empty cache and the accessor returns the lazily-computed list whose
angles carry the degree unit. -/
theorem elements_units_by_path :
    (∀ (attractor : Body) (elements : List Qty) (epoch : ℝ) (s : State),
      State.from_elements attractor elements epoch = Except.ok s →
      s.cache = some elements ∧ (State.elements s).1 = elements) ∧
    (∀ (attractor : Body) (r v : QVec) (epoch : ℝ) (s : State),
      State.from_vectors attractor r v epoch = Except.ok s →
      s.cache = none ∧
      (State.elements s).1.map (fun q => q.unit) =
        [km, one_unit, degree, degree, degree, degree]) := by
  constructor
  · intro attractor elements epoch s h
    revert h
    unfold State.from_elements
    split
    · split
      · intro h
        exact Except.noConfusion h
      · intro h
        have hs := Except.ok.inj h
        subst hs
        exact ⟨rfl, by unfold State.elements; rfl⟩
    · intro h
      exact Except.noConfusion h
  · intro attractor r v epoch s h
    revert h
    unfold State.from_vectors
    split
    · intro h
      exact Except.noConfusion h
    · intro h
      have hs := Except.ok.inj h
      subst hs
      exact ⟨rfl, by unfold State.elements; rfl⟩

/-- Witness for C10: both construction paths at concrete inputs. -/
theorem elements_units_by_path_witness :
    State.from_elements earthW elemsKmW 0 = Except.ok stateElemsW ∧
    (State.elements stateElemsW).1 = elemsKmW ∧
    State.from_vectors earthW ⟨⟨7000, 0, 0⟩, km⟩ ⟨⟨0, 8, 0⟩, kmps⟩ 0 =
      Except.ok stateW ∧
    (State.elements stateW).1.map (fun q => q.unit) =
      [km, one_unit, degree, degree, degree, degree] := by
  have h1 : State.from_elements earthW elemsKmW 0 = Except.ok stateElemsW := rfl
  have h2 : State.from_vectors earthW ⟨⟨7000, 0, 0⟩, km⟩ ⟨⟨0, 8, 0⟩, kmps⟩ 0 =
      Except.ok stateW := rfl
  exact ⟨h1, ((elements_units_by_path).1 earthW elemsKmW 0 stateElemsW h1).2,
    h2, ((elements_units_by_path).2 earthW _ _ 0 stateW h2).2⟩
